import Mathlib

/-!
Verification development for the consultation-session program
(src/gui.py and src/utils.py).

The session data model and its operations are embedded shallowly:
Python dicts with insertion order become association lists
(`List (String × _)`), in-place mutation becomes functional update,
`float` samples become rationals, and code paths that can raise a
Python exception return `Except PyErr _`.
-/

/-- Python exception classes that the modelled code paths can raise.
`invalidStateError` and `noAudioCapturedError` are classes named by the
specification; they appear nowhere in the source, and are carried here
only so that statements about them can be expressed. -/
inductive PyErr where
  | valueError
  | attributeError
  | keyError
  | typeError
  | invalidStateError
  | noAudioCapturedError
deriving DecidableEq, Repr

/-- One question slot of a session (gui.py lines 123-126: the dicts built
when the session is created). -/
structure QuestionSlot where
  question_id : Int
  question_text : String
  transcript : String
  typed_answer : String
  audio_path : String
deriving DecidableEq, Repr

/-- The all-empty slot, used as the out-of-range default for lookups that
the cursor-validity invariant keeps unreachable. -/
def emptySlot : QuestionSlot :=
  { question_id := 0, question_text := "", transcript := "", typed_answer := "", audio_path := "" }

/-- Python `dict` lookup on an insertion-ordered association list:
the first entry with the given key. -/
def dictGet (l : List (String × α)) (k : String) : Option α :=
  match l with
  | [] => none
  | (a, v) :: rest => if a = k then some v else dictGet rest k

/-- `dict.get(k, d)`: lookup with a default. -/
def dictGetD (l : List (String × α)) (k : String) (d : α) : α :=
  (dictGet l k).getD d

/-- Python `dict` assignment `m[k] = v`: replaces the value of an existing
key in place (keeping its position), otherwise appends a new entry. -/
def dictSet (l : List (String × α)) (k : String) (v : α) : List (String × α) :=
  match l with
  | [] => [(k, v)]
  | (a, w) :: rest => if a = k then (k, v) :: rest else (a, w) :: dictSet rest k v

/-- In-place mutation of the value stored under key `k` (first occurrence),
modelling `d[k].field = ...` on a Python dict entry. -/
def updateFirst (l : List (String × α)) (k : String) (f : α → α) : List (String × α) :=
  match l with
  | [] => []
  | (a, v) :: rest => if a = k then (a, f v) :: rest else (a, v) :: updateFirst rest k f

/-- In-place mutation of a list element at an index, modelling
`xs[i].field = ...`; out of range is a no-op (unreachable under the
cursor-validity invariant). -/
def listModify (l : List α) (i : Nat) (f : α → α) : List α :=
  match l, i with
  | [], _ => []
  | a :: rest, 0 => f a :: rest
  | a :: rest, n + 1 => a :: listModify rest n f

/-- Python `list.index`, assuming the element is present (the only way the
source uses it, on the key list of `questions_by_subcat`). -/
def pyIndex (l : List String) (k : String) : Nat :=
  match l with
  | [] => 0
  | a :: rest => if a = k then 0 else pyIndex rest k + 1

/-- Python `str.rstrip()` with no argument: drop trailing whitespace.
Defined by structural recursion on the character list so that it
evaluates inside the kernel. -/
def pyRstrip (s : String) : String :=
  String.mk ((s.data.reverse.dropWhile Char.isWhitespace).reverse)

/-- Python `str.strip()` with no argument: drop leading and trailing
whitespace. -/
def pyStrip (s : String) : String :=
  String.mk (((s.data.dropWhile Char.isWhitespace).reverse.dropWhile Char.isWhitespace).reverse)

/-- The session dict built at session setup (gui.py lines 127-136).
`questions_by_subcat` is the insertion-ordered mapping
subcategory → slot list; the cursor is `(current_subcat, current_index)`.
The dict has no state field of any kind. -/
structure Session where
  patient_name : String
  patient_dob : String
  diagnostic_category : String
  started_at : String
  questions_by_subcat : List (String × List QuestionSlot)
  current_subcat : String
  current_index : Nat
  general_notes : List String
deriving DecidableEq, Repr

/-- The slot list of the current subcategory. -/
def current_slots (sess : Session) : List QuestionSlot :=
  dictGetD sess.questions_by_subcat sess.current_subcat []

/-- `get_slot` (gui.py lines 148-152). -/
def get_slot (sess : Session) : QuestionSlot :=
  (current_slots sess).getD sess.current_index emptySlot

/-- `commit_current_slot` (gui.py lines 139-145): writes the on-screen
edit buffers into the slot at the current cursor, the transcript
right-trimmed (`rstrip`) and the typed answer trimmed (`strip`). -/
def commit_current_slot (sess : Session) (tbuf ybuf : String) : Session :=
  { sess with
    questions_by_subcat :=
      updateFirst sess.questions_by_subcat sess.current_subcat
        (fun slots =>
          listModify slots sess.current_index
            (fun slot =>
              { slot with transcript := pyRstrip tbuf, typed_answer := pyStrip ybuf })) }

/-- Outcome of a navigation: the cursor moved, or it was at a boundary and
the handler showed a notice popup instead (gui.py lines 234 and 242). -/
inductive NavSignal where
  | moved
  | boundary
deriving DecidableEq, Repr

/-- Cursor movement of the `-NEXT-` handler (gui.py lines 228-234):
`if idx < len(qbs[sc]) - 1` advance, else signal the boundary.  The
comparison is on Python integers, hence the cast to `Int`. -/
def navigate_next (sess : Session) : Session × NavSignal :=
  if (sess.current_index : Int) < (current_slots sess).length - 1 then
    ({ sess with current_index := sess.current_index + 1 }, NavSignal.moved)
  else
    (sess, NavSignal.boundary)

/-- Cursor movement of the `-PREV-` handler (gui.py lines 238-242):
`if idx > 0` retreat, else signal the boundary. -/
def navigate_prev (sess : Session) : Session × NavSignal :=
  if 0 < sess.current_index then
    ({ sess with current_index := sess.current_index - 1 }, NavSignal.moved)
  else
    (sess, NavSignal.boundary)

/-- The report snapshot assembled by `run_app` (gui.py lines 287-294). -/
structure ReportSnapshot where
  patient_name : String
  patient_dob : String
  diagnostic_category : String
  started_at : String
  questions : List QuestionSlot
  general_notes : List String
deriving DecidableEq, Repr

/-- The flattening loop of `run_app` (gui.py lines 284-286):
`flat = []; for sub in qbs.values(): flat.extend(sub)`. -/
def flatten_questions (qbs : List (String × List QuestionSlot)) : List QuestionSlot :=
  qbs.foldl (fun flat p => flat ++ p.2) []

/-- Finalization (gui.py lines 283-294): flatten `questions_by_subcat`
values in insertion order into the `questions` list of the report data. -/
def build_report_data (sess : Session) : ReportSnapshot :=
  { patient_name := sess.patient_name
    patient_dob := sess.patient_dob
    diagnostic_category := sess.diagnostic_category
    started_at := sess.started_at
    questions := flatten_questions sess.questions_by_subcat
    general_notes := sess.general_notes }

/-- The `-NEXT-` event handler (gui.py lines 226-234): commit the edit
buffers, then move the cursor. -/
def handle_next_event (sess : Session) (tbuf ybuf : String) : Session × NavSignal :=
  navigate_next (commit_current_slot sess tbuf ybuf)

/-- The `-PREV-` event handler (gui.py lines 236-242). -/
def handle_prev_event (sess : Session) (tbuf ybuf : String) : Session × NavSignal :=
  navigate_prev (commit_current_slot sess tbuf ybuf)

/-- The `-SUBCAT-` (section switch) event handler (gui.py lines 198-202):
commit the edit buffers, then set the subcategory and reset the index. -/
def handle_subcat_event (sess : Session) (target tbuf ybuf : String) : Session :=
  let s1 := commit_current_slot sess tbuf ybuf
  { s1 with current_subcat := target, current_index := 0 }

/-- The `-FINISH-` path (gui.py lines 265-269 followed by 283-294):
commit the edit buffers, then build the report data. -/
def handle_finish_event (sess : Session) (tbuf ybuf : String) : ReportSnapshot :=
  build_report_data (commit_current_slot sess tbuf ybuf)

/-- The `-SAVE_NOTE-` handler (gui.py lines 256-263): strip the note text;
if non-empty, append it with the timestamp suffix, else do nothing. -/
def append_general_note (sess : Session) (txt ts : String) : Session :=
  if pyStrip txt = "" then sess
  else
    { sess with
      general_notes := sess.general_notes ++ [pyStrip txt ++ " (noted at " ++ ts ++ ")"] }

/-- The slot stored at an explicit coordinate, used to observe a session
after the cursor has moved. -/
def slotAt (sess : Session) (sc : String) (i : Nat) : Option QuestionSlot :=
  (dictGet sess.questions_by_subcat sc).bind (fun slots => slots.get? i)

/-- The progress computation of `refresh_ui` (gui.py lines 164-173),
returned as `(section_pos, section_total, overall_pos, overall_total)`.
`before` is computed as in the source: the key list is cut at
`keys.index(sc)` and each preceding key is looked up again in the dict. -/
def progress (qbs : List (String × List QuestionSlot)) (sc : String) (idx : Nat) :
    Nat × Nat × Nat × Nat :=
  let sec_total := (dictGetD qbs sc []).length
  let sec_idx := idx + 1
  let totals := qbs.map (fun p => p.2.length)
  let overall_total := totals.sum
  let keys := qbs.map Prod.fst
  let before := ((keys.take (pyIndex keys sc)).map (fun k => (dictGetD qbs k []).length)).sum
  (sec_idx, sec_total, before + sec_idx, overall_total)

/-! ### Association-list and flattening lemmas -/

theorem dictGet_append_of_not_mem (pre : List (String × α)) (rest : List (String × α))
    (k : String) (h : k ∉ pre.map Prod.fst) :
    dictGet (pre ++ rest) k = dictGet rest k := by
  induction pre with
  | nil => rfl
  | cons p pre ih =>
    have hk : p.1 ≠ k := by
      intro hkk
      exact h (by simp [hkk])
    have hmem : k ∉ pre.map Prod.fst := by
      intro hm
      exact h (by simp [hm])
    cases p with
    | mk a v =>
      simp only [List.cons_append, dictGet, if_neg hk]
      exact ih hmem

theorem dictGet_cons_self (a : String) (v : α) (rest : List (String × α)) :
    dictGet ((a, v) :: rest) a = some v := by
  simp [dictGet]

theorem dictGet_mid (pre post : List (String × α)) (k : String) (v : α)
    (h : k ∉ pre.map Prod.fst) :
    dictGet (pre ++ (k, v) :: post) k = some v := by
  rw [dictGet_append_of_not_mem pre _ k h]
  exact dictGet_cons_self k v post

theorem dictGet_prefix (pre rest : List (String × α)) (k : String)
    (h : k ∈ pre.map Prod.fst) :
    dictGet (pre ++ rest) k = dictGet pre k := by
  induction pre with
  | nil => simp at h
  | cons p pre ih =>
    cases p with
    | mk a v =>
      by_cases hk : a = k
      · simp [dictGet, hk]
      · have hmem : k ∈ pre.map Prod.fst := by
          simp only [List.map_cons, List.mem_cons] at h
          rcases h with h | h
          · exact absurd h.symm hk
          · exact h
        simp only [List.cons_append, dictGet, if_neg hk]
        exact ih hmem

theorem updateFirst_mid (pre post : List (String × α)) (k : String) (v : α) (f : α → α)
    (h : k ∉ pre.map Prod.fst) :
    updateFirst (pre ++ (k, v) :: post) k f = pre ++ (k, f v) :: post := by
  induction pre with
  | nil => simp [updateFirst]
  | cons p pre ih =>
    have hk : p.1 ≠ k := by
      intro hkk
      exact h (by simp [hkk])
    have hmem : k ∉ pre.map Prod.fst := by
      intro hm
      exact h (by simp [hm])
    cases p with
    | mk a w =>
      simp only [List.cons_append, updateFirst, if_neg hk]
      exact congrArg (List.cons (a, w)) (ih hmem)

theorem pyIndex_mid (pre post : List String) (k : String) (h : k ∉ pre) :
    pyIndex (pre ++ k :: post) k = pre.length := by
  induction pre with
  | nil => simp [pyIndex]
  | cons a pre ih =>
    have hk : a ≠ k := fun hkk => h (by simp [hkk])
    have hmem : k ∉ pre := fun hm => h (by simp [hm])
    simp only [List.cons_append, pyIndex, if_neg hk, List.length_cons]
    exact congrArg (fun n => n + 1) (ih hmem)

theorem listModify_eq_set (l : List α) (i : Nat) (f : α → α) (h : i < l.length) :
    listModify l i f = l.set i (f (l.get ⟨i, h⟩)) := by
  induction l generalizing i with
  | nil => simp at h
  | cons a rest ih =>
    cases i with
    | zero => rfl
    | succ n =>
      simp only [listModify, List.set]
      rw [ih n (by simpa using h)]
      rfl

theorem listModify_get? (l : List α) (i : Nat) (f : α → α) (j : Nat) :
    (listModify l i f).get? j = if j = i then (l.get? i).map f else l.get? j := by
  induction l generalizing i j with
  | nil => simp [listModify]
  | cons a rest ih =>
    cases i with
    | zero =>
      cases j with
      | zero => simp [listModify]
      | succ m => simp [listModify]
    | succ n =>
      cases j with
      | zero => simp [listModify]
      | succ m =>
        simp only [listModify, List.get?]
        rw [ih n m]
        by_cases hj : m = n
        · simp [hj]
        · simp [hj, Nat.succ_ne_succ]

theorem flatten_questions_foldl (qbs : List (String × List QuestionSlot))
    (acc : List QuestionSlot) :
    qbs.foldl (fun flat p => flat ++ p.2) acc = acc ++ (qbs.map Prod.snd).flatten := by
  induction qbs generalizing acc with
  | nil => simp
  | cons p qbs ih =>
    simp only [List.foldl_cons, List.map_cons, List.flatten_cons]
    rw [ih, List.append_assoc]

theorem flatten_questions_eq_join (qbs : List (String × List QuestionSlot)) :
    flatten_questions qbs = (qbs.map Prod.snd).flatten := by
  have := flatten_questions_foldl qbs []
  simpa [flatten_questions] using this

theorem join_map_length (l : List (String × List QuestionSlot)) :
    ((l.map Prod.snd).flatten).length = (l.map (fun p => p.2.length)).sum := by
  induction l with
  | nil => rfl
  | cons p l ih =>
    simp only [List.map_cons, List.flatten_cons, List.length_append, List.sum_cons, ih]

theorem map_dictGetD_length (pre rest : List (String × List QuestionSlot))
    (hnd : (pre.map Prod.fst).Nodup) :
    (pre.map Prod.fst).map (fun k => (dictGetD (pre ++ rest) k ([] : List QuestionSlot)).length)
      = pre.map (fun p => p.2.length) := by
  induction pre generalizing rest with
  | nil => rfl
  | cons p pre ih =>
    cases p with
    | mk a v =>
      simp only [List.map_cons] at hnd
      have ha : a ∉ pre.map Prod.fst := (List.nodup_cons.mp hnd).1
      have hnd2 : (pre.map Prod.fst).Nodup := (List.nodup_cons.mp hnd).2
      simp only [List.map_cons]
      congr 1
      · simp [dictGetD, List.cons_append, dictGet]
      · have hmap : (pre.map Prod.fst).map
            (fun k => (dictGetD ((a, v) :: pre ++ rest) k ([] : List QuestionSlot)).length)
            = (pre.map Prod.fst).map
              (fun k => (dictGetD (pre ++ rest) k ([] : List QuestionSlot)).length) := by
          apply List.map_congr_left
          intro k hk
          have hka : a ≠ k := fun h => ha (h ▸ hk)
          simp [dictGetD, List.cons_append, dictGet, if_neg hka]
        rw [hmap]
        exact ih rest hnd2

/-- Claim C8: `progress` (the computation of `refresh_ui`, gui.py lines
164-173) is a pure function of `(questions_by_subcat, cursor)` with
`section_total` the size of the current subcategory's slot list,
`section_pos = current_index + 1`, `overall_total` the sum of all
subcategory slot-list sizes, and `overall_pos` the sum of the sizes of the
subcategories preceding the current one in catalog order plus
`section_pos`. -/
theorem progress_correct (pre post : List (String × List QuestionSlot))
    (sc : String) (cur : List QuestionSlot) (idx : Nat)
    (hnd : ((pre ++ (sc, cur) :: post).map Prod.fst).Nodup) :
    progress (pre ++ (sc, cur) :: post) sc idx
      = (idx + 1, cur.length,
         (pre.map (fun p => p.2.length)).sum + (idx + 1),
         ((pre ++ (sc, cur) :: post).map (fun p => p.2.length)).sum) := by
  have hkeys : (pre ++ (sc, cur) :: post).map Prod.fst
      = pre.map Prod.fst ++ sc :: post.map Prod.fst := by simp
  rw [hkeys] at hnd
  rcases List.nodup_append.mp hnd with ⟨hnd1, _, hdisj⟩
  have hsc : sc ∉ pre.map Prod.fst := fun hmem => hdisj hmem (List.mem_cons_self sc _)
  simp only [progress, hkeys]
  rw [pyIndex_mid _ _ _ hsc]
  rw [show (pre.map Prod.fst).length = (pre.map Prod.fst).length from rfl]
  rw [List.take_left]
  have hcur : dictGetD (pre ++ (sc, cur) :: post) sc ([] : List QuestionSlot) = cur := by
    simp [dictGetD, dictGet_mid _ _ _ _ hsc]
  rw [hcur, map_dictGetD_length pre ((sc, cur) :: post) hnd1]

/-- Witness for `progress_correct` at a concrete two-subcategory catalog. -/
theorem progress_correct_witness :
    (([(("A" : String), [emptySlot])] ++ (("B" : String), [emptySlot, emptySlot]) :: []).map
      Prod.fst).Nodup ∧
    progress ([(("A" : String), [emptySlot])] ++ (("B" : String), [emptySlot, emptySlot]) :: [])
      ("B") 1 = (2, 2, 3, 3) := by
  refine ⟨by decide, ?_⟩
  rw [progress_correct [(("A" : String), [emptySlot])] [] ("B") [emptySlot, emptySlot] 1
    (by decide)]
  decide

/-- Claim C6: `navigate(Previous)` at index 0 and `navigate(Next)` at the
last index of the current subcategory do not move the cursor and signal
the boundary (a notice popup, not an error), and neither direction ever
changes `current_subcat` (gui.py lines 226-242). -/
theorem navigate_boundary (sess : Session) :
    (sess.current_index = 0 → navigate_prev sess = (sess, NavSignal.boundary)) ∧
    (sess.current_index + 1 = (current_slots sess).length →
      navigate_next sess = (sess, NavSignal.boundary)) ∧
    (navigate_next sess).1.current_subcat = sess.current_subcat ∧
    (navigate_prev sess).1.current_subcat = sess.current_subcat := by
  refine ⟨?_, ?_, ?_, ?_⟩
  · intro h
    simp [navigate_prev, h]
  · intro h
    have hnot : ¬ ((sess.current_index : Int) < ((current_slots sess).length : Int) - 1) := by
      omega
    simp [navigate_next, hnot]
  · by_cases h : (sess.current_index : Int) < ((current_slots sess).length : Int) - 1 <;>
      simp [navigate_next, h]
  · by_cases h : 0 < sess.current_index <;> simp [navigate_prev, h]

/-- A one-slot session with the cursor at index 0: it sits at both
navigation boundaries at once. -/
def oneSlotSess : Session :=
  { patient_name := "J", patient_dob := "1990-01-01", diagnostic_category := "Mood",
    started_at := "T",
    questions_by_subcat := [(("All" : String), [emptySlot])],
    current_subcat := "All", current_index := 0, general_notes := [] }

/-- Witness for `navigate_boundary`. -/
theorem navigate_boundary_witness :
    navigate_prev oneSlotSess = (oneSlotSess, NavSignal.boundary) ∧
    navigate_next oneSlotSess = (oneSlotSess, NavSignal.boundary) := by
  refine ⟨(navigate_boundary _).1 rfl, (navigate_boundary _).2.1 ?_⟩
  decide

/-- The session used to refute the unconditional navigation round trip:
cursor at the last index (index 1 of 2). -/
def c7sess : Session :=
  { patient_name := "Jane", patient_dob := "1990-01-01", diagnostic_category := "Mood",
    started_at := "2026-01-01T00:00:00",
    questions_by_subcat := [(("All" : String), [emptySlot, emptySlot])],
    current_subcat := "All", current_index := 1, general_notes := [] }

/-- Claim C7 counterexample: with the cursor at the last index of a
two-slot subcategory, `navigate(Next)` signals the boundary without
moving, but the following `navigate(Previous)` does move, so the round
trip does not restore the original cursor. -/
theorem navigate_roundtrip_counterexample :
    (navigate_prev (navigate_next c7sess).1).1.current_index ≠ c7sess.current_index := by
  decide

/-- Claim C7 (amended): when `navigate(Next)` actually moves (the cursor
is not at the last index), the following `navigate(Previous)` restores
the original cursor exactly, and the whole session — in particular every
slot's content — is unchanged; both calls signal `moved`. -/
theorem navigate_roundtrip_after_move (sess : Session)
    (h : sess.current_index + 1 < (current_slots sess).length) :
    (navigate_next sess).2 = NavSignal.moved ∧
    (navigate_prev (navigate_next sess).1).1 = sess ∧
    (navigate_prev (navigate_next sess).1).2 = NavSignal.moved := by
  have hlt : (sess.current_index : Int) < ((current_slots sess).length : Int) - 1 := by
    omega
  obtain ⟨pn, pd, dc, sa, qbs, sc, idx, gn⟩ := sess
  simp only [navigate_next, if_pos hlt]
  simp only [navigate_prev]
  simp [Nat.succ_sub_one]

/-- A two-slot session with the cursor at index 0, for the round-trip
witness. -/
def twoSlotSess : Session :=
  { patient_name := "Jane", patient_dob := "1990-01-01", diagnostic_category := "Mood",
    started_at := "T",
    questions_by_subcat := [(("All" : String), [emptySlot, emptySlot])],
    current_subcat := "All", current_index := 0, general_notes := [] }

/-- Witness for `navigate_roundtrip_after_move` with the cursor at index 0
of a two-slot subcategory. -/
theorem navigate_roundtrip_witness :
    (navigate_next twoSlotSess).2 = NavSignal.moved ∧
    (navigate_prev (navigate_next twoSlotSess).1).1 = twoSlotSess := by
  have h := navigate_roundtrip_after_move twoSlotSess (by decide)
  exact ⟨h.1, h.2.1⟩

theorem commit_qbs_eq (sess : Session) (pre post : List (String × List QuestionSlot))
    (sc : String) (cur : List QuestionSlot) (idx : Nat) (t y : String)
    (hq : sess.questions_by_subcat = pre ++ (sc, cur) :: post)
    (hsc : sess.current_subcat = sc) (hidx : sess.current_index = idx)
    (hmem : sc ∉ pre.map Prod.fst) (hlt : idx < cur.length) :
    (commit_current_slot sess t y).questions_by_subcat
      = pre ++ (sc, cur.set idx
          { cur.get ⟨idx, hlt⟩ with transcript := pyRstrip t, typed_answer := pyStrip y }) :: post := by
  simp only [commit_current_slot, hq, hsc, hidx]
  rw [updateFirst_mid _ _ _ _ _ hmem]
  rw [listModify_eq_set cur idx _ hlt]

theorem commit_other_fields (sess : Session) (t y : String) :
    (commit_current_slot sess t y).patient_name = sess.patient_name ∧
    (commit_current_slot sess t y).patient_dob = sess.patient_dob ∧
    (commit_current_slot sess t y).diagnostic_category = sess.diagnostic_category ∧
    (commit_current_slot sess t y).started_at = sess.started_at ∧
    (commit_current_slot sess t y).current_subcat = sess.current_subcat ∧
    (commit_current_slot sess t y).current_index = sess.current_index ∧
    (commit_current_slot sess t y).general_notes = sess.general_notes := by
  simp [commit_current_slot]

theorem commit_twice_qbs_eq (sess : Session) (pre post : List (String × List QuestionSlot))
    (sc : String) (cur : List QuestionSlot) (idx : Nat) (t1 y1 t2 y2 : String)
    (hq : sess.questions_by_subcat = pre ++ (sc, cur) :: post)
    (hsc : sess.current_subcat = sc) (hidx : sess.current_index = idx)
    (hmem : sc ∉ pre.map Prod.fst) (hlt : idx < cur.length) :
    (commit_current_slot (commit_current_slot sess t1 y1) t2 y2).questions_by_subcat
      = pre ++ (sc, cur.set idx
          { cur.get ⟨idx, hlt⟩ with transcript := pyRstrip t2, typed_answer := pyStrip y2 }) :: post := by
  have h1 := commit_qbs_eq sess pre post sc cur idx t1 y1 hq hsc hidx hmem hlt
  have hlt1 : idx < (cur.set idx
      { cur.get ⟨idx, hlt⟩ with transcript := pyRstrip t1, typed_answer := pyStrip y1 }).length := by
    simpa using hlt
  have h2 := commit_qbs_eq (commit_current_slot sess t1 y1) pre post sc _ idx t2 y2 h1
    (by simp [commit_current_slot, hsc]) (by simp [commit_current_slot, hidx]) hmem hlt1
  rw [h2]
  have hget : (cur.set idx
        { cur.get ⟨idx, hlt⟩ with transcript := pyRstrip t1, typed_answer := pyStrip y1 }).get
        ⟨idx, hlt1⟩
      = { cur.get ⟨idx, hlt⟩ with transcript := pyRstrip t1, typed_answer := pyStrip y1 } := by
    simp [List.get_eq_getElem, List.getElem_set_self]
  rw [hget, List.set_set]

/-- Claim C1: committing text into the slot at the cursor and then
finalizing yields report questions that flatten `questions_by_subcat` in
catalog-insertion order (the subcategories before the current one, then
its slots in order, then the ones after), with exactly
`Σ |subcategory slot lists|` entries; the committed slot carries the
last-committed (right-trimmed) transcript and (trimmed) typed answer,
and no other slot is disturbed. -/
theorem commit_finalize_questions (sess : Session)
    (pre post : List (String × List QuestionSlot))
    (sc : String) (cur : List QuestionSlot) (idx : Nat) (t1 y1 t2 y2 : String)
    (hq : sess.questions_by_subcat = pre ++ (sc, cur) :: post)
    (hsc : sess.current_subcat = sc) (hidx : sess.current_index = idx)
    (hnd : (sess.questions_by_subcat.map Prod.fst).Nodup) (hlt : idx < cur.length) :
    (build_report_data (commit_current_slot (commit_current_slot sess t1 y1) t2 y2)).questions
        = (pre.map Prod.snd).flatten
          ++ cur.set idx
            { cur.get ⟨idx, hlt⟩ with transcript := pyRstrip t2, typed_answer := pyStrip y2 }
          ++ (post.map Prod.snd).flatten ∧
    (build_report_data (commit_current_slot (commit_current_slot sess t1 y1) t2 y2)).questions.length
        = (sess.questions_by_subcat.map (fun p => p.2.length)).sum := by
  rw [hq] at hnd
  have hkeys : (pre ++ (sc, cur) :: post).map Prod.fst
      = pre.map Prod.fst ++ sc :: post.map Prod.fst := by simp
  rw [hkeys] at hnd
  rcases List.nodup_append.mp hnd with ⟨_, _, hdisj⟩
  have hmem : sc ∉ pre.map Prod.fst := fun hin => hdisj hin (List.mem_cons_self sc _)
  have hqbs := commit_twice_qbs_eq sess pre post sc cur idx t1 y1 t2 y2 hq hsc hidx hmem hlt
  constructor
  · simp only [build_report_data, flatten_questions_eq_join, hqbs]
    simp [List.flatten_append]
  · simp only [build_report_data, flatten_questions_eq_join, hqbs, hq]
    simp [List.length_set, Function.comp_def]

/-- The session used to witness the commit-then-finalize claim: two
subcategories, cursor on the second slot of the first. -/
def c1sess : Session :=
  { patient_name := "Jane", patient_dob := "1990-01-01", diagnostic_category := "Mood",
    started_at := "T",
    questions_by_subcat :=
      [(("A" : String), [emptySlot, emptySlot]), (("B" : String), [emptySlot])],
    current_subcat := "A", current_index := 1, general_notes := [] }

/-- The slot expected after the final commit in the witness scenario. -/
def c1slot : QuestionSlot :=
  { question_id := 0, question_text := "", transcript := "ok", typed_answer := "fine",
    audio_path := "" }

/-- Witness for `commit_finalize_questions`. -/
theorem commit_finalize_questions_witness :
    (build_report_data
        (commit_current_slot (commit_current_slot c1sess "old" "old") "ok " " fine ")).questions
        = [emptySlot, c1slot, emptySlot] ∧
    (build_report_data
        (commit_current_slot (commit_current_slot c1sess "old" "old") "ok " " fine ")).questions.length
        = 3 := by
  have h := commit_finalize_questions c1sess []
    [(("B" : String), [emptySlot])] ("A") [emptySlot, emptySlot] 1 ("old") ("old")
    ("ok ") (" fine ") rfl rfl rfl (by decide) (by decide)
  refine ⟨?_, ?_⟩
  · rw [h.1]
    decide
  · rw [h.2]
    decide

theorem get?_set_self (l : List α) (i : Nat) (a : α) (h : i < l.length) :
    (l.set i a).get? i = some a := by
  induction l generalizing i with
  | nil => simp at h
  | cons b rest ih =>
    cases i with
    | zero => rfl
    | succ n =>
      simp only [List.set, List.get?]
      exact ih n (by simpa using h)

theorem get?_append_shift (A B : List α) (n : Nat) :
    (A ++ B).get? (A.length + n) = B.get? n := by
  induction A with
  | nil => simp
  | cons a A ih =>
    simpa [Nat.succ_add] using ih

theorem get?_append_lt (A B : List α) (n : Nat) (h : n < A.length) :
    (A ++ B).get? n = A.get? n := by
  induction A generalizing n with
  | nil => simp at h
  | cons a A ih =>
    cases n with
    | zero => rfl
    | succ m =>
      simpa using ih m (by simpa using h)

theorem navigate_next_qbs (sess : Session) :
    (navigate_next sess).1.questions_by_subcat = sess.questions_by_subcat := by
  by_cases h : (sess.current_index : Int) < ((current_slots sess).length : Int) - 1 <;>
    simp [navigate_next, h]

theorem navigate_prev_qbs (sess : Session) :
    (navigate_prev sess).1.questions_by_subcat = sess.questions_by_subcat := by
  by_cases h : 0 < sess.current_index <;> simp [navigate_prev, h]

/-- Claim C10: every cursor-moving or session-ending event — `Next`,
`Previous`, section switch, and `Finish` — first writes the on-screen
edit buffers into the slot at the pre-event cursor (transcript
right-trimmed, typed answer trimmed) before the cursor moves or the
report is generated, so buffer edits present at navigation time are never
dropped.  The slot at the old coordinates of the resulting session (or
the corresponding flat report entry for `Finish`) holds the trimmed
buffers. -/
theorem handlers_commit_before_move (sess : Session)
    (pre post : List (String × List QuestionSlot))
    (sc : String) (cur : List QuestionSlot) (idx : Nat) (target t y : String)
    (hq : sess.questions_by_subcat = pre ++ (sc, cur) :: post)
    (hsc : sess.current_subcat = sc) (hidx : sess.current_index = idx)
    (hnd : (sess.questions_by_subcat.map Prod.fst).Nodup) (hlt : idx < cur.length) :
    slotAt (handle_next_event sess t y).1 sc idx
        = some { cur.get ⟨idx, hlt⟩ with transcript := pyRstrip t, typed_answer := pyStrip y } ∧
    slotAt (handle_prev_event sess t y).1 sc idx
        = some { cur.get ⟨idx, hlt⟩ with transcript := pyRstrip t, typed_answer := pyStrip y } ∧
    slotAt (handle_subcat_event sess target t y) sc idx
        = some { cur.get ⟨idx, hlt⟩ with transcript := pyRstrip t, typed_answer := pyStrip y } ∧
    (handle_finish_event sess t y).questions.get? ((pre.map (fun p => p.2.length)).sum + idx)
        = some { cur.get ⟨idx, hlt⟩ with transcript := pyRstrip t, typed_answer := pyStrip y } := by
  rw [hq] at hnd
  have hkeys : (pre ++ (sc, cur) :: post).map Prod.fst
      = pre.map Prod.fst ++ sc :: post.map Prod.fst := by simp
  rw [hkeys] at hnd
  rcases List.nodup_append.mp hnd with ⟨_, _, hdisj⟩
  have hmem : sc ∉ pre.map Prod.fst := fun hin => hdisj hin (List.mem_cons_self sc _)
  have hqbs := commit_qbs_eq sess pre post sc cur idx t y hq hsc hidx hmem hlt
  have hslot : ∀ s2 : Session, s2.questions_by_subcat
        = (commit_current_slot sess t y).questions_by_subcat →
      slotAt s2 sc idx
        = some { cur.get ⟨idx, hlt⟩ with transcript := pyRstrip t, typed_answer := pyStrip y } := by
    intro s2 h2
    rw [slotAt, h2, hqbs, dictGet_mid _ _ _ _ hmem]
    exact get?_set_self cur idx _ hlt
  refine ⟨?_, ?_, ?_, ?_⟩
  · exact hslot _ (navigate_next_qbs _)
  · exact hslot _ (navigate_prev_qbs _)
  · exact hslot _ rfl
  · rw [handle_finish_event]
    simp only [build_report_data, flatten_questions_eq_join, hqbs]
    simp only [List.map_append, List.map_cons, List.flatten_append, List.flatten_cons]
    have hlen : ((pre.map Prod.snd).flatten).length = (pre.map (fun p => p.2.length)).sum :=
      join_map_length pre
    rw [← hlen, get?_append_shift]
    rw [get?_append_lt _ _ idx (by simpa using hlt)]
    exact get?_set_self cur idx _ (by simpa using hlt)

/-- The session used to witness the commit-before-move claim. -/
def c10sess : Session :=
  { patient_name := "Jane", patient_dob := "1990-01-01", diagnostic_category := "Mood",
    started_at := "T",
    questions_by_subcat :=
      [(("A" : String), [emptySlot, emptySlot]), (("B" : String), [emptySlot])],
    current_subcat := "A", current_index := 1, general_notes := [] }

/-- The committed slot expected in the commit-before-move witness. -/
def c10slot : QuestionSlot :=
  { question_id := 0, question_text := "", transcript := "ok", typed_answer := "fine",
    audio_path := "" }

/-- Witness for `handlers_commit_before_move`. -/
theorem handlers_commit_before_move_witness :
    slotAt (handle_next_event c10sess "ok " " fine ").1 ("A") 1 = some c10slot ∧
    slotAt (handle_prev_event c10sess "ok " " fine ").1 ("A") 1 = some c10slot ∧
    slotAt (handle_subcat_event c10sess "B" "ok " " fine ") ("A") 1 = some c10slot ∧
    (handle_finish_event c10sess "ok " " fine ").questions.get? 1 = some c10slot := by
  have h := handlers_commit_before_move c10sess []
    [(("B" : String), [emptySlot])] ("A") [emptySlot, emptySlot] 1 ("B") ("ok ") (" fine ")
    rfl rfl rfl (by decide) (by decide)
  refine ⟨?_, ?_, ?_, ?_⟩
  · rw [h.1]
    decide
  · rw [h.2.1]
    decide
  · rw [h.2.2.1]
    decide
  · have h4 := h.2.2.2
    rw [show ((([] : List (String × List QuestionSlot)).map (fun p => p.2.length)).sum + 1) = 1
      from rfl] at h4
    rw [h4]
    decide

/-!
### Absence of a session state machine

The session dict (gui.py lines 127-136) has no `state` key, and no
operation in the source tests one; no `InvalidStateError` class exists in
the repository.  The following wrappers give each operation the
`Except PyErr` result type in which such a failure would live: each one
returns `.ok` unconditionally because the corresponding code path cannot
raise.
-/

/-- `finalize` in `Except` form: the report-building block of `run_app`
(gui.py lines 283-294) runs unconditionally, with no state check. -/
def finalizeE (sess : Session) : Except PyErr ReportSnapshot :=
  Except.ok (build_report_data sess)

/-- `commit_slot` in `Except` form (gui.py lines 139-145): no state check. -/
def commitE (sess : Session) (t y : String) : Except PyErr Session :=
  Except.ok (commit_current_slot sess t y)

/-- `navigate(Next)` in `Except` form (gui.py lines 226-234): no state
check. -/
def navigateNextE (sess : Session) : Except PyErr (Session × NavSignal) :=
  Except.ok (navigate_next sess)

/-- `navigate(Previous)` in `Except` form (gui.py lines 236-242). -/
def navigatePrevE (sess : Session) : Except PyErr (Session × NavSignal) :=
  Except.ok (navigate_prev sess)

/-- `append_note` in `Except` form (gui.py lines 256-263): no state check. -/
def appendNoteE (sess : Session) (txt ts : String) : Except PyErr Session :=
  Except.ok (append_general_note sess txt ts)

/-- A session as it stands right after `run_app` has built the report:
the code records no transition, so it is indistinguishable from the
session before finalization. -/
def c3sess : Session :=
  { patient_name := "Jane", patient_dob := "1990-01-01", diagnostic_category := "Mood",
    started_at := "T",
    questions_by_subcat := [(("All" : String), [emptySlot])],
    current_subcat := "All", current_index := 0, general_notes := [] }

/-- Claim C3 counterexample: on a session on which finalize has already
run (which leaves no trace on the session), a second finalize succeeds
and returns a snapshot instead of failing with `InvalidStateError`, and
`commit_slot`, `navigate` and `append_note` all succeed as well —
`commit_slot` visibly mutating the slot. -/
theorem no_state_guard_counterexample :
    finalizeE c3sess = Except.ok (build_report_data c3sess) ∧
    commitE c3sess "edited" "edited" ≠ Except.error PyErr.invalidStateError ∧
    navigateNextE c3sess ≠ Except.error PyErr.invalidStateError ∧
    appendNoteE c3sess "x" "ts" ≠ Except.error PyErr.invalidStateError ∧
    (commit_current_slot c3sess "edited" "edited").questions_by_subcat
      ≠ c3sess.questions_by_subcat := by
  refine ⟨rfl, fun h => Except.noConfusion h, fun h => Except.noConfusion h,
    fun h => Except.noConfusion h, by decide⟩

/-- Claim C3 (amended): the session has no state field and no operation
checks one, so nothing ever fails with `InvalidStateError`: finalize — a
pure read — can be repeated, and `commit_slot`, `navigate` and
`append_note` remain fully effective on a finalized (or any) session;
`commit_slot` still rewrites the slot at the cursor.  A session stops
being mutated only because the GUI event loop exits. -/
theorem no_terminal_state_enforcement (sess : Session)
    (pre post : List (String × List QuestionSlot))
    (sc : String) (cur : List QuestionSlot) (idx : Nat) (t y n ts : String) (e : PyErr)
    (hq : sess.questions_by_subcat = pre ++ (sc, cur) :: post)
    (hsc : sess.current_subcat = sc) (hidx : sess.current_index = idx)
    (hmem : sc ∉ pre.map Prod.fst) (hlt : idx < cur.length) :
    finalizeE sess ≠ Except.error e ∧
    commitE sess t y ≠ Except.error e ∧
    navigateNextE sess ≠ Except.error e ∧
    navigatePrevE sess ≠ Except.error e ∧
    appendNoteE sess n ts ≠ Except.error e ∧
    (commit_current_slot sess t y).questions_by_subcat
      = pre ++ (sc, cur.set idx
          { cur.get ⟨idx, hlt⟩ with transcript := pyRstrip t, typed_answer := pyStrip y }) :: post := by
  refine ⟨?_, ?_, ?_, ?_, ?_, ?_⟩
  · exact fun h => Except.noConfusion h
  · exact fun h => Except.noConfusion h
  · exact fun h => Except.noConfusion h
  · exact fun h => Except.noConfusion h
  · exact fun h => Except.noConfusion h
  · exact commit_qbs_eq sess pre post sc cur idx t y hq hsc hidx hmem hlt

/-- Witness for `no_terminal_state_enforcement`. -/
theorem no_terminal_state_enforcement_witness :
    finalizeE c3sess ≠ Except.error PyErr.invalidStateError ∧
    (commit_current_slot c3sess "a" "b").questions_by_subcat
      = [] ++ (("All" : String), [emptySlot].set 0
          { emptySlot with transcript := pyRstrip "a", typed_answer := pyStrip "b" }) :: [] := by
  have h := no_terminal_state_enforcement c3sess [] [] ("All") [emptySlot] 0
    ("a") ("b") ("x") ("ts") PyErr.invalidStateError rfl rfl rfl (by decide) (by decide)
  exact ⟨h.1, h.2.2.2.2.2⟩

/-!
### Reference semantics of the finalize snapshot

`run_app` (gui.py lines 283-294) builds `report_data['questions']` by
`flat.extend(sub)` over the session's own slot dicts and passes
`sess['general_notes']` itself: the snapshot holds *references* to the
session's mutable objects, not copies.  To state this, slots live in a
heap (addresses are indices into `Heap.slots`, which also carries the one
`general_notes` list object), the session stores addresses, and reading a
snapshot dereferences the heap as the report renderer would.
-/

/-- The mutable objects of the process: the slot dicts and the
`general_notes` list. -/
structure Heap where
  slots : List QuestionSlot
  notes : List String
deriving DecidableEq, Repr

/-- The session as a layout of references: `qbsRefs` maps each
subcategory to the addresses of its slot dicts. -/
structure SessionRefs where
  patient_name : String
  patient_dob : String
  diagnostic_category : String
  started_at : String
  qbsRefs : List (String × List Nat)
deriving DecidableEq, Repr

/-- The snapshot `run_app` builds: metadata strings are copied (Python
strings are immutable), but `questionRefs` is the flattening of the
session's slot addresses, and the notes are shared with the session by
construction. -/
structure SnapshotRefs where
  patient_name : String
  patient_dob : String
  diagnostic_category : String
  started_at : String
  questionRefs : List Nat
deriving DecidableEq, Repr

/-- The reference-level content of `report_data` (gui.py lines 284-294):
`flat = []; for sub in qbs.values(): flat.extend(sub)` copies the
*references*, not the dicts. -/
def build_report_refs (sr : SessionRefs) : SnapshotRefs :=
  { patient_name := sr.patient_name
    patient_dob := sr.patient_dob
    diagnostic_category := sr.diagnostic_category
    started_at := sr.started_at
    questionRefs := sr.qbsRefs.foldl (fun flat p => flat ++ p.2) [] }

/-- What a reader of the snapshot (the report renderer) observes: each
question reference is dereferenced in the current heap, and
`general_notes` is the session's notes object itself. -/
def readSnapshot (h : Heap) (snap : SnapshotRefs) : ReportSnapshot :=
  { patient_name := snap.patient_name
    patient_dob := snap.patient_dob
    diagnostic_category := snap.diagnostic_category
    started_at := snap.started_at
    questions := snap.questionRefs.map (fun a => (h.slots.get? a).getD emptySlot)
    general_notes := h.notes }

/-- The post-finalize mutations named by the claim: writing a slot field
through the (still reachable) session, or appending a general note. -/
inductive Mutation where
  | setTranscript : Nat → String → Mutation
  | setTyped : Nat → String → Mutation
  | setAudio : Nat → String → Mutation
  | appendNote : String → Mutation
deriving DecidableEq, Repr

/-- Effect of a mutation on the heap. -/
def applyMutation (h : Heap) : Mutation → Heap
  | Mutation.setTranscript a v =>
      { h with slots := listModify h.slots a (fun s => { s with transcript := v }) }
  | Mutation.setTyped a v =>
      { h with slots := listModify h.slots a (fun s => { s with typed_answer := v }) }
  | Mutation.setAudio a v =>
      { h with slots := listModify h.slots a (fun s => { s with audio_path := v }) }
  | Mutation.appendNote v => { h with notes := h.notes ++ [v] }

/-- The one-slot heap and session layout used to refute snapshot
independence. -/
def c2heap : Heap :=
  { slots := [emptySlot], notes := [] }

/-- The session layout over `c2heap`. -/
def c2refs : SessionRefs :=
  { patient_name := "Jane", patient_dob := "1990-01-01", diagnostic_category := "Mood",
    started_at := "T", qbsRefs := [(("All" : String), [0])] }

/-- Claim C2 counterexample: the snapshot is not an independent copy —
mutating the slot's transcript through the session after finalize changes
what a reader of the previously produced snapshot observes. -/
theorem snapshot_not_independent_counterexample :
    readSnapshot (applyMutation c2heap (Mutation.setTranscript 0 "changed"))
        (build_report_refs c2refs)
      ≠ readSnapshot c2heap (build_report_refs c2refs) := by
  decide

/-- Claim C2 (amended): the snapshot aliases the session's slot dicts and
its `general_notes` list instead of deep-copying them: a post-finalize
write to a slot field is observed through the snapshot at every position
referencing that slot, and an appended note is observed in the snapshot's
`general_notes`; only the four top-level metadata strings are independent
of every mutation. -/
theorem view_of_slot_write (h : Heap) (refs : List Nat) (a : Nat)
    (f : QuestionSlot → QuestionSlot) (ha : a < h.slots.length) :
    refs.map (fun r => ((listModify h.slots a f).get? r).getD emptySlot)
      = refs.map (fun r =>
          if r = a then f (h.slots.get ⟨a, ha⟩) else (h.slots.get? r).getD emptySlot) := by
  apply List.map_congr_left
  intro r _
  rw [listModify_get? h.slots a f r]
  by_cases hr : r = a
  · subst hr
    have hg : h.slots[r]? = some h.slots[r] := List.getElem?_eq_getElem ha
    simp [List.get?_eq_getElem?, List.get_eq_getElem, hg]
  · simp [hr]

theorem snapshot_aliases_session (h : Heap) (sr : SessionRefs) (a : Nat) (v : String)
    (m : Mutation) (ha : a < h.slots.length) :
    (readSnapshot (applyMutation h m) (build_report_refs sr)).patient_name
        = (readSnapshot h (build_report_refs sr)).patient_name ∧
    (readSnapshot (applyMutation h m) (build_report_refs sr)).patient_dob
        = (readSnapshot h (build_report_refs sr)).patient_dob ∧
    (readSnapshot (applyMutation h m) (build_report_refs sr)).diagnostic_category
        = (readSnapshot h (build_report_refs sr)).diagnostic_category ∧
    (readSnapshot (applyMutation h m) (build_report_refs sr)).started_at
        = (readSnapshot h (build_report_refs sr)).started_at ∧
    (readSnapshot (applyMutation h (Mutation.setTranscript a v)) (build_report_refs sr)).questions
        = (build_report_refs sr).questionRefs.map (fun r =>
            if r = a then { h.slots.get ⟨a, ha⟩ with transcript := v }
            else (h.slots.get? r).getD emptySlot) ∧
    (readSnapshot (applyMutation h (Mutation.setTyped a v)) (build_report_refs sr)).questions
        = (build_report_refs sr).questionRefs.map (fun r =>
            if r = a then { h.slots.get ⟨a, ha⟩ with typed_answer := v }
            else (h.slots.get? r).getD emptySlot) ∧
    (readSnapshot (applyMutation h (Mutation.setAudio a v)) (build_report_refs sr)).questions
        = (build_report_refs sr).questionRefs.map (fun r =>
            if r = a then { h.slots.get ⟨a, ha⟩ with audio_path := v }
            else (h.slots.get? r).getD emptySlot) ∧
    (readSnapshot (applyMutation h (Mutation.appendNote v)) (build_report_refs sr)).general_notes
        = (readSnapshot h (build_report_refs sr)).general_notes ++ [v] := by
  refine ⟨rfl, rfl, rfl, rfl, ?_, ?_, ?_, rfl⟩
  · exact view_of_slot_write h (build_report_refs sr).questionRefs a
      (fun s => { s with transcript := v }) ha
  · exact view_of_slot_write h (build_report_refs sr).questionRefs a
      (fun s => { s with typed_answer := v }) ha
  · exact view_of_slot_write h (build_report_refs sr).questionRefs a
      (fun s => { s with audio_path := v }) ha

/-- Witness for `snapshot_aliases_session`. -/
theorem snapshot_aliases_session_witness :
    (readSnapshot (applyMutation c2heap (Mutation.setTranscript 0 "changed"))
        (build_report_refs c2refs)).questions
      = (build_report_refs c2refs).questionRefs.map (fun r =>
          if r = 0 then { emptySlot with transcript := "changed" }
          else (c2heap.slots.get? r).getD emptySlot) ∧
    (readSnapshot (applyMutation c2heap (Mutation.setTyped 0 "changed"))
        (build_report_refs c2refs)).questions
      = (build_report_refs c2refs).questionRefs.map (fun r =>
          if r = 0 then { emptySlot with typed_answer := "changed" }
          else (c2heap.slots.get? r).getD emptySlot) ∧
    (readSnapshot (applyMutation c2heap (Mutation.setAudio 0 "changed"))
        (build_report_refs c2refs)).questions
      = (build_report_refs c2refs).questionRefs.map (fun r =>
          if r = 0 then { emptySlot with audio_path := "changed" }
          else (c2heap.slots.get? r).getD emptySlot) ∧
    (readSnapshot (applyMutation c2heap (Mutation.appendNote "late note"))
        (build_report_refs c2refs)).general_notes
      = (readSnapshot c2heap (build_report_refs c2refs)).general_notes ++ ["late note"] := by
  have h := snapshot_aliases_session c2heap c2refs 0 ("changed") (Mutation.appendNote "late note")
    (by decide)
  refine ⟨?_, ?_, ?_, ?_⟩
  · rw [h.2.2.2.2.1]
    decide
  · rw [h.2.2.2.2.2.1]
    decide
  · rw [h.2.2.2.2.2.2.1]
    decide
  · have h2 := snapshot_aliases_session c2heap c2refs 0 ("late note")
      (Mutation.appendNote "late note") (by decide)
    exact h2.2.2.2.2.2.2.2

/-!
### Audio capture and PCM conversion

`stop_recording_and_save` (gui.py lines 35-56) concatenates the buffered
chunks (`np.concatenate`, which raises `ValueError` on an empty list),
converts with `(data * 32767).astype(np.int16)` — an exact scaling
followed by C-style truncation toward zero and a two's-complement wrap to
16 bits, with no saturation — and exports a mono 16 kHz, 2-byte-wide WAV.
Float samples are modelled as rationals; the float32 rounding of the
multiplication is below the resolution of the claims checked here.
-/

/-- C-style conversion of a real value to an integer: truncation toward
zero (the behaviour of numpy's float→int cast for in-range values). -/
def truncQ (x : ℚ) : Int := if 0 ≤ x then Int.floor x else Int.ceil x

/-- Two's-complement reduction to the signed 16-bit range, the wrap
applied by `astype(np.int16)` to out-of-range integers. -/
def wrap16 (n : Int) : Int := (n + 32768) % 65536 - 32768

/-- `(x * 32767).astype(np.int16)` for one sample (gui.py line 42). -/
def floatToInt16 (x : ℚ) : Int := wrap16 (truncQ (x * 32767))

/-- `np.concatenate(recorder_chunks, axis=0)` (gui.py line 40): raises
`ValueError` ("need at least one array to concatenate") on an empty
list. -/
def npConcatenate (chunks : List (List ℚ)) : Except PyErr (List ℚ) :=
  if chunks.isEmpty then Except.error PyErr.valueError else Except.ok chunks.flatten

/-- `session_id.replace(':', '').replace('-', '')` (gui.py line 45). -/
def scrub_session_id (s : String) : String :=
  String.mk (s.data.filter (fun c => ¬(c = ':' ∨ c = '-')))

/-- The WAV file name built at gui.py lines 46-48. -/
def wav_filename (session_id : String) (question_id : Int) (ts : String) : String :=
  "session_" ++ scrub_session_id session_id ++ "_q_" ++ toString question_id
    ++ "_" ++ ts ++ ".wav"

/-- The WAV artifact written by `seg.export` (gui.py lines 49-56): the
container parameters passed to `AudioSegment` and the PCM samples. -/
structure WavResult where
  path : String
  frame_rate : Nat
  sample_width : Nat
  channels : Nat
  samples : List Int
deriving DecidableEq, Repr

/-- `stop_recording_and_save` (gui.py lines 35-56), given the buffered
chunks and the current timestamp: concatenate, convert to int16 PCM, and
export a mono 16 kHz WAV under the derived filename. -/
def stop_recording_and_save (chunks : List (List ℚ)) (session_id : String)
    (question_id : Int) (ts : String) : Except PyErr WavResult :=
  (npConcatenate chunks).map (fun data =>
    { path := wav_filename session_id question_id ts
      frame_rate := 16000
      sample_width := 2
      channels := 1
      samples := data.map floatToInt16 })

/-- The `-STOP_REC-` handler step that concerns the slot (gui.py lines
209-211): `wav = stop_recording_and_save(...)` and then
`get_slot()['audio_path'] = wav`.  If the call raises, the assignment
never runs, the exception propagates out of the event loop, and no
session survives. -/
def handle_stop_rec (sess : Session) (chunks : List (List ℚ)) (ts : String) :
    Except PyErr Session :=
  match stop_recording_and_save chunks sess.started_at (get_slot sess).question_id ts with
  | Except.error e => Except.error e
  | Except.ok res =>
      Except.ok
        { sess with
          questions_by_subcat :=
            updateFirst sess.questions_by_subcat sess.current_subcat
              (fun slots =>
                listModify slots sess.current_index
                  (fun slot => { slot with audio_path := res.path })) }

theorem wrap16_bounds (n : Int) : -32768 ≤ wrap16 n ∧ wrap16 n ≤ 32767 := by
  have h1 : 0 ≤ (n + 32768) % 65536 := Int.emod_nonneg _ (by norm_num)
  have h2 : (n + 32768) % 65536 < 65536 := Int.emod_lt_of_pos _ (by norm_num)
  unfold wrap16
  omega

theorem wrap16_fixed (m : Int) (h1 : -32768 ≤ m) (h2 : m ≤ 32767) : wrap16 m = m := by
  unfold wrap16
  have : (m + 32768) % 65536 = m + 32768 := Int.emod_eq_of_lt (by omega) (by omega)
  omega

theorem truncQ_bounds (y : ℚ) (h1 : -32767 ≤ y) (h2 : y ≤ 32767) :
    -32767 ≤ truncQ y ∧ truncQ y ≤ 32767 := by
  unfold truncQ
  by_cases h0 : (0 : ℚ) ≤ y
  · rw [if_pos h0]
    constructor
    · have h00 : (0 : ℤ) ≤ Int.floor y := Int.le_floor.mpr (by exact_mod_cast h0)
      omega
    · calc Int.floor y ≤ Int.floor (32767 : ℚ) := Int.floor_le_floor h2
        _ = 32767 := by
            rw [show (32767 : ℚ) = ((32767 : ℤ) : ℚ) by norm_num, Int.floor_intCast]
  · rw [if_neg h0]
    constructor
    · calc (-32767 : ℤ) = Int.ceil ((-32767 : ℤ) : ℚ) := (Int.ceil_intCast _).symm
        _ ≤ Int.ceil y := Int.ceil_le_ceil (by exact_mod_cast h1)
    · have : Int.ceil y ≤ 0 := Int.ceil_le.mpr (by push_cast; linarith [not_le.mp h0])
      omega

theorem floatToInt16_eval (x : ℚ) (n : Int) (hx : x * 32767 = (n : ℚ)) :
    floatToInt16 x = wrap16 n := by
  have ht : truncQ (x * 32767) = n := by
    rw [hx, truncQ]
    by_cases h0 : (0 : ℚ) ≤ (n : ℚ)
    · rw [if_pos h0, Int.floor_intCast]
    · rw [if_neg h0, Int.ceil_intCast]
  rw [floatToInt16, ht]

/-- Claim C5 counterexample: the sample value `2.0` (outside `[-1, 1]`)
is converted to `-2`, a two's-complement wrap, not to the saturated value
`32767` the claim requires. -/
theorem int16_cast_wraps_counterexample :
    floatToInt16 2 = -2 ∧ floatToInt16 2 ≠ 32767 := by
  have e : floatToInt16 2 = -2 := by
    rw [floatToInt16_eval 2 65534 (by norm_num)]
    decide
  refine ⟨e, ?_⟩
  rw [e]
  decide

/-- Claim C5 (amended): on a successful `end_capture` every sample is
scaled by `32767` and cast to int16 with truncation toward zero and
two's-complement *wrap-around* (no saturation): samples in `[-1, 1]`
convert exactly to the truncated scaled value in `[-32767, 32767]`, every
output lies in the int16 range, and out-of-range scaled values are
reduced modulo `2^16` rather than clipped; the result is recorded as a
single-channel, 16 kHz, 2-byte-per-sample WAV. -/
theorem stop_recording_pcm (chunks : List (List ℚ)) (sid : String) (qid : Int)
    (ts : String) (h : chunks ≠ []) :
    stop_recording_and_save chunks sid qid ts
        = Except.ok
          { path := wav_filename sid qid ts, frame_rate := 16000, sample_width := 2,
            channels := 1, samples := chunks.flatten.map floatToInt16 } ∧
    (∀ s ∈ chunks.flatten.map floatToInt16, -32768 ≤ s ∧ s ≤ 32767) ∧
    (∀ x : ℚ, -1 ≤ x → x ≤ 1 →
      floatToInt16 x = truncQ (x * 32767) ∧ -32767 ≤ floatToInt16 x ∧ floatToInt16 x ≤ 32767) ∧
    (∀ x : ℚ, ∃ k : Int, floatToInt16 x = truncQ (x * 32767) - 65536 * k) := by
  refine ⟨?_, ?_, ?_, ?_⟩
  · have he : ¬(chunks.isEmpty = true) := by simpa using h
    rw [stop_recording_and_save, npConcatenate, if_neg he]
    rfl
  · intro s hs
    rcases List.mem_map.mp hs with ⟨x, _, rfl⟩
    exact wrap16_bounds _
  · intro x h1 h2
    have hy1 : (-32767 : ℚ) ≤ x * 32767 := by nlinarith
    have hy2 : x * 32767 ≤ 32767 := by nlinarith
    rcases truncQ_bounds (x * 32767) hy1 hy2 with ⟨hb1, hb2⟩
    have hfix : floatToInt16 x = truncQ (x * 32767) := by
      rw [floatToInt16, wrap16_fixed _ (by omega) hb2]
    exact ⟨hfix, by omega, by omega⟩
  · intro x
    refine ⟨(truncQ (x * 32767) + 32768) / 65536, ?_⟩
    rw [floatToInt16, wrap16, Int.emod_def]
    ring

/-- Witness for `stop_recording_pcm` on one chunk holding the samples
`1.0` and `-1.0`. -/
theorem stop_recording_pcm_witness :
    ([[(1 : ℚ), -1]] ≠ ([] : List (List ℚ))) ∧
    stop_recording_and_save [[(1 : ℚ), -1]] ("s:1") 7 ("ts")
      = Except.ok
        { path := wav_filename ("s:1") 7 ("ts"), frame_rate := 16000, sample_width := 2,
          channels := 1, samples := [32767, -32767] } := by
  refine ⟨by simp, ?_⟩
  have h := stop_recording_pcm [[(1 : ℚ), -1]] ("s:1") 7 ("ts") (by simp)
  rw [h.1]
  have e1 : floatToInt16 1 = 32767 := by
    rw [floatToInt16_eval 1 32767 (by norm_num)]
    decide
  have e2 : floatToInt16 (-1) = -32767 := by
    rw [floatToInt16_eval (-1) (-32767) (by norm_num)]
    decide
  simp [e1, e2]

/-- Claim C4 (code evaluation): stopping a capture whose buffer is empty
makes `np.concatenate` raise a plain `ValueError` — not the
`NoAudioCapturedError` the claim names — and the exception is not caught
anywhere in `question_window`, so the event loop dies instead of letting
the caller retry.  The slot assignment after the call never executes (no
session state is returned at all). -/
theorem empty_capture_raises_valueerror (sess : Session) (ts : String) :
    handle_stop_rec sess [] ts = Except.error PyErr.valueError ∧
    handle_stop_rec sess [] ts ≠ Except.error PyErr.noAudioCapturedError := by
  refine ⟨rfl, ?_⟩
  intro hcontr
  exact PyErr.noConfusion (Except.error.inj hcontr)

/-!
### Catalog loading and normalization

`load_all_question_sets` (utils.py lines 19-42) parses each JSON file in
the questions folder: a dict whose values are all lists is merged
category-by-category; otherwise the file is treated as the flat legacy
shape and its `questions` list is stored directly under its
`diagnostic_category` key.  `transform_question_sets` (gui.py lines
59-78) then iterates `subcats.items()` for every category value — which
raises `AttributeError` when that value is a list.  JSON values are
modelled by `JVal`.
-/

/-- A parsed JSON value. -/
inductive JVal where
  | jint : Int → JVal
  | jstr : String → JVal
  | jlist : List JVal → JVal
  | jdict : List (String × JVal) → JVal

/-- `isinstance(v, list)`. -/
def jIsList : JVal → Bool
  | JVal.jlist _ => true
  | _ => false

/-- Python truthiness of a JSON value. -/
def jTruthy : JVal → Bool
  | JVal.jint i => i != 0
  | JVal.jstr s => s != ""
  | JVal.jlist l => !l.isEmpty
  | JVal.jdict l => !l.isEmpty

/-- Lookup in a dict keyed by question ids. -/
def intDictGet (l : List (Int × String)) (k : Int) : Option String :=
  match l with
  | [] => none
  | (a, v) :: rest => if a = k then some v else intDictGet rest k

/-- Assignment in a dict keyed by question ids. -/
def intDictSet (l : List (Int × String)) (k : Int) (v : String) : List (Int × String) :=
  match l with
  | [] => [(k, v)]
  | (a, w) :: rest => if a = k then (k, v) :: rest else (a, w) :: intDictSet rest k v

/-- Processing of one parsed file inside the loop of
`load_all_question_sets` (utils.py lines 27-41), threading the
accumulated `question_sets` dict.  A non-dict top level makes `data.get`
raise `AttributeError`; a file that is a dict of lists is merged; any
other dict is read as `{diagnostic_category, questions}` and its raw
question list is stored directly under the category (no subcategory
level is introduced).  A truthy non-string category key is out of scope
of this model and mapped to `TypeError`. -/
def load_one (acc : List (String × JVal)) (data : JVal) : Except PyErr (List (String × JVal)) :=
  match data with
  | JVal.jdict entries =>
      if entries.all (fun p => jIsList p.2) then
        Except.ok (entries.foldl (fun a p => dictSet a p.1 p.2) acc)
      else
        match dictGet entries ("diagnostic_category") with
        | some c =>
            if jTruthy c then
              match c with
              | JVal.jstr cs =>
                  Except.ok (dictSet acc cs ((dictGet entries ("questions")).getD (JVal.jlist [])))
              | _ => Except.error PyErr.typeError
            else Except.ok acc
        | none => Except.ok acc
  | _ => Except.error PyErr.attributeError

/-- `load_all_question_sets` (utils.py lines 19-42) over the parsed JSON
files of the questions folder, in directory order. -/
def load_all_question_sets (files : List JVal) : Except PyErr (List (String × JVal)) :=
  files.foldlM load_one []

/-- One step of the `id_map` construction (gui.py lines 62-64):
`id_map[q['id']] = q['text']`. -/
def build_id_map_q (m : List (Int × String)) (q : JVal) : Except PyErr (List (Int × String)) :=
  match q with
  | JVal.jdict d =>
      match dictGet d ("id"), dictGet d ("text") with
      | some (JVal.jint i), some (JVal.jstr t) => Except.ok (intDictSet m i t)
      | some _, some _ => Except.error PyErr.typeError
      | _, _ => Except.error PyErr.keyError
  | _ => Except.error PyErr.typeError

/-- The inner loop of the `id_map` construction over one question list. -/
def build_id_map_list (m : List (Int × String)) (qs : List JVal) :
    Except PyErr (List (Int × String)) :=
  qs.foldlM build_id_map_q m

/-- The outer loop of the `id_map` construction over the subcategories of
the `undefined` category (gui.py lines 60-64). -/
def build_id_map (raw : List (String × JVal)) : Except PyErr (List (Int × String)) :=
  match (dictGet raw ("undefined")).getD (JVal.jdict []) with
  | JVal.jdict entries =>
      entries.foldlM
        (fun mm p =>
          match p.2 with
          | JVal.jlist qs => build_id_map_list mm qs
          | _ => Except.error PyErr.typeError)
        []
  | _ => Except.error PyErr.attributeError

/-- `id_map.get(qid, f"(missing {qid})")` (gui.py line 72). -/
def id_map_get (m : List (Int × String)) (i : Int) : String :=
  (intDictGet m i).getD ("(missing " ++ toString i ++ ")")

/-- The per-subcategory body of `transform_question_sets` (gui.py lines
69-75): an id-only list (non-empty with an integer head) is resolved
through `id_map`; any other list passes through unchanged; a non-list is
not iterable. -/
def transform_items (m : List (Int × String)) (items : JVal) : Except PyErr (List JVal) :=
  match items with
  | JVal.jlist l =>
      match l with
      | JVal.jint _ :: _ =>
          l.mapM (fun v =>
            match v with
            | JVal.jint i =>
                Except.ok (JVal.jdict [("id", JVal.jint i), ("text", JVal.jstr (id_map_get m i))])
            | _ => Except.error PyErr.typeError)
      | _ => Except.ok l
  | _ => Except.error PyErr.typeError

/-- The per-category body of `transform_question_sets` (gui.py lines
66-77): `for subcat, items in subcats.items()` — `AttributeError` when
the category value is not a dict (a list has no `.items()`). -/
def transform_subcats (m : List (Int × String)) (subcats : JVal) :
    Except PyErr (List (String × List JVal)) :=
  match subcats with
  | JVal.jdict entries =>
      entries.mapM (fun p => (transform_items m p.2).map (fun qs => (p.1, qs)))
  | _ => Except.error PyErr.attributeError

/-- `transform_question_sets` (gui.py lines 59-78). -/
def transform_question_sets (raw : List (String × JVal)) :
    Except PyErr (List (String × List (String × List JVal))) :=
  match build_id_map raw with
  | Except.error e => Except.error e
  | Except.ok m =>
      raw.mapM (fun p => (transform_subcats m p.2).map (fun sc => (p.1, sc)))

/-- The flat legacy file of the claim:
`{"diagnostic_category": "X", "questions": [{"id": 1, "text": "t"}]}`. -/
def c9file : JVal :=
  JVal.jdict
    [("diagnostic_category", JVal.jstr ("X")),
     ("questions", JVal.jlist [JVal.jdict [("id", JVal.jint 1), ("text", JVal.jstr ("t"))]])]

/-- Claim C9 (code evaluation): loading a folder holding exactly the flat
legacy file stores the raw `questions` list directly under its category —
there is no synthetic `"All"` subcategory, nor any subcategory level at
all — and `transform_question_sets` then fails with `AttributeError`
(a list has no `.items()`), which in `gui.py` happens at import time. -/
theorem flat_legacy_file_eval :
    load_all_question_sets [c9file]
      = Except.ok
        [(("X" : String),
          JVal.jlist [JVal.jdict [("id", JVal.jint 1), ("text", JVal.jstr ("t"))]])] ∧
    transform_question_sets
        [(("X" : String),
          JVal.jlist [JVal.jdict [("id", JVal.jint 1), ("text", JVal.jstr ("t"))]])]
      = Except.error PyErr.attributeError := by
  exact ⟨rfl, rfl⟩
